import Mathlib

/-!
Verification development for the OnboardLite mobile-wallet pass builder
(`app/routes/wallet.py`).

The embedding models:
  * `get_img` — the avatar fetch with its fallback recursion (modelled with an
    explicit fuel parameter, since the Python function is recursive with no
    structural bound; `none` means the recursion never returns within any
    bound, i.e. the Python call never terminates normally).
  * `apple_wallet` — the pass builder: profile dict in, signed `PKPass` out.
    File reads and the network are modelled as explicit oracles (`Assets`,
    `fetch`); a failed read (Python exception) is `none`.  `json.dumps` of the
    manifest is modelled by storing the structured manifest value itself in
    the package entry (the serialization is injective and adds nothing the
    claims depend on).  The random `uuid.uuid4()` draw is an explicit `serial`
    argument.

Profile data reaches the builder as a Python dict (`user_to_dict` output);
every access in the source is a defaulted `.get`, so each field is modelled
as an `Option`, `none` standing for an absent key.
-/

/-- Raw bytes, as a list of byte values. -/
abbrev Bytes := List Nat

/-- An HTTP response as `get_img` observes it: a status code and the raw body. -/
structure HttpResp where
  status : Nat
  body : Bytes
deriving DecidableEq

/-- The hardcoded fallback avatar URL in `get_img`. -/
def fallback_url : String := "https://cdn.hackucf.org/PFP.png"

/--
`get_img` from `wallet.py`:

    resp = requests.get(url, stream=True)
    if resp.status_code < 400: return resp.raw.read()
    else: return get_img("https://cdn.hackucf.org/PFP.png")

`fetch` is the network oracle.  The Python function is unboundedly recursive,
so the model takes a fuel bound: `some b` means the call returns bytes `b`
within that recursion depth, `none` means it does not return within the bound.
-/
def get_img (fetch : String → HttpResp) : Nat → String → Option Bytes
  | 0, _ => none
  | fuel + 1, url =>
      let resp := fetch url
      if resp.status < 400 then some resp.body
      else get_img fetch fuel fallback_url

/-- Number of fetches `get_img` performs before returning, within the fuel
bound (`none` when the bound is exhausted first). -/
def get_img_calls (fetch : String → HttpResp) : Nat → String → Option Nat
  | 0, _ => none
  | fuel + 1, url =>
      if (fetch url).status < 400 then some 1
      else (get_img_calls fetch fuel fallback_url).map (· + 1)

/-- The `discord` sub-dict of the profile: `username` and `avatar` keys. -/
structure DiscordData where
  username : Option String
  avatar : Option String
deriving DecidableEq

/-- A profile record as `apple_wallet` consumes it: the output of
`user_to_dict`, accessed only through defaulted `.get` calls, so every field
is optional (`none` = key absent). -/
structure UserData where
  id : Option String
  first_name : Option String
  surname : Option String
  infra_email : Option String
  ops_email : Option String
  discord : Option DiscordData
deriving DecidableEq

/-- `True if user_data.get("ops_email", False) else False` — Python truthiness:
an absent key or an empty string is falsy. -/
def is_ops (u : UserData) : Bool :=
  match u.ops_email with
  | some e => e ≠ ""
  | none => false

/-- `user_data.get("discord", {}).get("username", None)`. -/
def discord_username (u : UserData) : Option String :=
  match u.discord with
  | some d => d.username
  | none => none

/-- `user_data.get("discord", {}).get("avatar", False)` (used only as a
truthiness test and then as a URL, so `none` covers absent/falsy). -/
def discord_avatar (u : UserData) : Option String :=
  match u.discord with
  | some d => d.avatar
  | none => none

/-- One element of the `barcodes` list of `pass.json`. -/
structure BarcodeJson where
  format : String
  message : String
  messageEncoding : String
  altText : Option String
deriving DecidableEq

/-- An exact decimal constant `mantissa / 10 ^ exponent` (the geofence
coordinates are fixed decimal literals in the source; this representation
keeps them exact and decidable). -/
structure Decimal where
  mantissa : Int
  exponent : Nat
deriving DecidableEq

/-- One element of the `locations` list of `pass.json`. -/
structure LocationJson where
  latitude : Decimal
  longitude : Decimal
  relevantText : String
deriving DecidableEq

/-- A label/key/value display field of `pass.json`. -/
structure FieldJson where
  label : String
  key : String
  value : String
deriving DecidableEq

/-- A back-of-pass field, which also carries a rich `attributedValue`. -/
structure BackFieldJson where
  label : String
  key : String
  value : String
  attributedValue : String
deriving DecidableEq

/-- The `generic` pass-style block of `pass.json`. -/
structure GenericJson where
  primaryFields : List FieldJson
  secondaryFields : List FieldJson
  backFields : List BackFieldJson
deriving DecidableEq

/-- The whole `pass_json` manifest dict built in `apple_wallet`. -/
structure PassJsonData where
  passTypeIdentifier : String
  formatVersion : Nat
  teamIdentifier : String
  organizationName : String
  serialNumber : String
  description : String
  locations : List LocationJson
  foregroundColor : String
  backgroundColor : String
  labelColor : String
  logoText : String
  barcodes : List BarcodeJson
  generic : GenericJson
deriving DecidableEq

/-- The `pass_json` dict literal of `apple_wallet`, with the `uuid.uuid4()`
draw made an explicit `serial` argument. -/
def pass_json (u : UserData) (serial : String) : PassJsonData :=
  { passTypeIdentifier := "pass.org.hackucf.join"
    formatVersion := 1
    teamIdentifier := "VWTW9R97Q4"
    organizationName := "Hack@UCF"
    serialNumber := serial
    description := "Hack@UCF Membership ID"
    locations := [
      { latitude := { mantissa := 28601366109876327, exponent := 15 }
        longitude := { mantissa := -8119867691612126, exponent := 14 }
        relevantText := "You're near the CyberLab!" }]
    foregroundColor := "#D2990B"
    backgroundColor := "#1C1C1C"
    labelColor := "#ffffff"
    logoText := ""
    barcodes := [
      { format := "PKBarcodeFormatQR"
        message := u.id.getD "Unknown_ID"
        messageEncoding := "iso-8859-1"
        altText := discord_username u }]
    generic :=
      { primaryFields := [
          { label := "Name"
            key := "name"
            value := u.first_name.getD "" ++ " " ++ u.surname.getD "" }]
        secondaryFields := [
          { label := "Infra Email"
            key := "infra"
            value := u.infra_email.getD "Not Provisioned" }]
        backFields := [
          { label := "View Profile"
            key := "view-profile"
            value := "You can view and edit your profile at https://join.hackucf.org/profile."
            attributedValue := "You can view and edit your profile at <a href='https://join.hackucf.org/profile'>join.hackucf.org</a>." },
          { label := "Check In"
            key := "check-in"
            value := "At a meeting? Visit https://hackucf.org/signin to sign in"
            attributedValue := "At a meeting? Visit <a href='https://hackucf.org/signin'>hackucf.org/signin</a> to sign in." }] } }

/-- A named entry of the pass package: either raw bytes (images) or the
serialized manifest (kept structured; `json.dumps` is injective). -/
inductive Entry where
  | bin (name : String) (data : Bytes)
  | manifest (name : String) (data : PassJsonData)
deriving DecidableEq

/-- The name an entry is stored under. -/
def Entry.name : Entry → String
  | .bin n _ => n
  | .manifest n _ => n

/-- The airpress `PKPass` object: ordered named entries, optional signing
credentials, and whether `.sign()` has been called. -/
structure PKPass where
  entries : List Entry
  key : Option Bytes
  cert : Option Bytes
  signed : Bool
deriving DecidableEq

/-- `PKPass()` — the empty, unsigned package. -/
def PKPass.empty : PKPass := ⟨[], none, none, false⟩

/-- `p.add_to_pass_package((name, data))` appends a named entry. -/
def add_to_pass_package (p : PKPass) (e : Entry) : PKPass :=
  { p with entries := p.entries ++ [e] }

/-- `p.sign()` — seals the package (credentials were attached beforehand). -/
def PKPass.sign (p : PKPass) : PKPass := { p with signed := true }

/-- The read-only local file store `apple_wallet` opens: static images and the
signing credentials.  `none` models a failing read (missing file ⇒ the Python
`open` raises and the whole request aborts). -/
structure Assets where
  icon : Option Bytes
  icon2x : Option Bytes
  logo_ops : Option Bytes
  logo_ops2x : Option Bytes
  logo_reg : Option Bytes
  logo_reg2x : Option Bytes
  key : Option Bytes
  cert : Option Bytes
deriving DecidableEq

/-- The two `icon.png`/`icon@2x.png` reads at the top of `apple_wallet`,
in source order. -/
def icon_entries (a : Assets) : Option (List Entry) := do
  let i ← a.icon
  let i2 ← a.icon2x
  pure [.bin "icon.png" i, .bin "icon@2x.png" i2]

/-- The optional thumbnail block: when the profile has an avatar URL the image
is fetched twice (the source re-fetches rather than reusing the buffer) and
added at both scales, in source order. -/
def thumb_entries (fetch : String → HttpResp) (fuel : Nat) :
    Option String → Option (List Entry)
  | none => some []
  | some url => do
      let d1 ← get_img fetch fuel url
      let d2 ← get_img fetch fuel url
      pure [.bin "thumbnail.png" d1, .bin "thumbnail@2x.png" d2]

/-- The role-selected logo block: ops logos when `is_ops`, regular otherwise;
the source adds the `@2x` scale first in both branches. -/
def logo_entries (a : Assets) (ops : Bool) : Option (List Entry) :=
  if ops then do
    let l2 ← a.logo_ops2x
    let l ← a.logo_ops
    pure [.bin "logo@2x.png" l2, .bin "logo.png" l]
  else do
    let l2 ← a.logo_reg2x
    let l ← a.logo_reg
    pure [.bin "logo@2x.png" l2, .bin "logo.png" l]

/--
`apple_wallet(user_data)` from `wallet.py`, with the implicit effects made
explicit: `a` the local file store, `fetch` the network, `fuel` the recursion
bound for `get_img`, `serial` the `uuid.uuid4()` draw.  Entries are added in
source order (icons, optional thumbnails, logos `@2x` first, `pass.json`),
then the credentials are attached and the package is signed.  Any failing
step (Python exception / non-terminating fetch) yields `none`: no pass is
returned.
-/
def apple_wallet (a : Assets) (fetch : String → HttpResp) (fuel : Nat)
    (serial : String) (u : UserData) : Option PKPass := do
  let ie ← icon_entries a
  let te ← thumb_entries fetch fuel (discord_avatar u)
  let le ← logo_entries a (is_ops u)
  let k ← a.key
  let c ← a.cert
  pure (PKPass.sign
    { entries := ie ++ te ++ le ++ [.manifest "pass.json" (pass_json u serial)]
      key := some k
      cert := some c
      signed := false })

/-- The manifest values stored in a package (the `pass.json` entries). -/
def PKPass.manifests (p : PKPass) : List PassJsonData :=
  p.entries.filterMap fun e =>
    match e with
    | .manifest _ d => some d
    | .bin _ _ => none

/-- The barcode payloads of each manifest entry of a package. -/
def PKPass.barcodeMessages (p : PKPass) : List (List String) :=
  p.manifests.map fun d => d.barcodes.map BarcodeJson.message

/-- The barcode alt-texts of a manifest. -/
def barcodeAltTexts (d : PassJsonData) : List (Option String) :=
  d.barcodes.map BarcodeJson.altText

/-- The thumbnail entries of a package, by entry name. -/
def PKPass.thumbEntries (p : PKPass) : List Entry :=
  p.entries.filter fun e =>
    e.name == "thumbnail.png" || e.name == "thumbnail@2x.png"

/-- Lookup of the (first) entry stored under a name. -/
def PKPass.find (p : PKPass) (n : String) : Option Entry :=
  p.entries.find? fun e => e.name == n

/-! ### Shape of a successful build -/

lemma icon_entries_eq_some {a : Assets} {l : List Entry}
    (h : icon_entries a = some l) :
    ∃ i i2, a.icon = some i ∧ a.icon2x = some i2 ∧
      l = [.bin "icon.png" i, .bin "icon@2x.png" i2] := by
  cases hi : a.icon with
  | none => simp [icon_entries, hi] at h
  | some i =>
    cases hi2 : a.icon2x with
    | none => simp [icon_entries, hi, hi2] at h
    | some i2 =>
      simp [icon_entries, hi, hi2] at h
      exact ⟨i, i2, rfl, rfl, h.symm⟩

lemma thumb_entries_none_eq_some {fetch : String → HttpResp} {fuel : Nat}
    {l : List Entry} (h : thumb_entries fetch fuel none = some l) : l = [] := by
  simpa [thumb_entries] using h.symm

lemma thumb_entries_some_eq_some {fetch : String → HttpResp} {fuel : Nat}
    {url : String} {l : List Entry}
    (h : thumb_entries fetch fuel (some url) = some l) :
    ∃ d, get_img fetch fuel url = some d ∧
      l = [.bin "thumbnail.png" d, .bin "thumbnail@2x.png" d] := by
  cases hd : get_img fetch fuel url with
  | none => simp [thumb_entries, hd] at h
  | some d =>
    simp [thumb_entries, hd] at h
    exact ⟨d, rfl, h.symm⟩

lemma logo_entries_true_eq_some {a : Assets} {l : List Entry}
    (h : logo_entries a true = some l) :
    ∃ l2 l1, a.logo_ops2x = some l2 ∧ a.logo_ops = some l1 ∧
      l = [.bin "logo@2x.png" l2, .bin "logo.png" l1] := by
  cases h2 : a.logo_ops2x with
  | none => simp [logo_entries, h2] at h
  | some l2 =>
    cases h1 : a.logo_ops with
    | none => simp [logo_entries, h2, h1] at h
    | some l1 =>
      simp [logo_entries, h2, h1] at h
      exact ⟨l2, l1, rfl, rfl, h.symm⟩

lemma logo_entries_false_eq_some {a : Assets} {l : List Entry}
    (h : logo_entries a false = some l) :
    ∃ l2 l1, a.logo_reg2x = some l2 ∧ a.logo_reg = some l1 ∧
      l = [.bin "logo@2x.png" l2, .bin "logo.png" l1] := by
  cases h2 : a.logo_reg2x with
  | none => simp [logo_entries, h2] at h
  | some l2 =>
    cases h1 : a.logo_reg with
    | none => simp [logo_entries, h2, h1] at h
    | some l1 =>
      simp [logo_entries, h2, h1] at h
      exact ⟨l2, l1, rfl, rfl, h.symm⟩

/-- Characterization of a successful `apple_wallet` run: every sub-step
succeeded and the returned package is the fully assembled, signed one. -/
lemma apple_wallet_eq_some {a : Assets} {fetch : String → HttpResp}
    {fuel : Nat} {serial : String} {u : UserData} {p : PKPass}
    (h : apple_wallet a fetch fuel serial u = some p) :
    ∃ ie te le k c,
      icon_entries a = some ie ∧
      thumb_entries fetch fuel (discord_avatar u) = some te ∧
      logo_entries a (is_ops u) = some le ∧
      a.key = some k ∧ a.cert = some c ∧
      p = { entries := ie ++ te ++ le ++
              [.manifest "pass.json" (pass_json u serial)],
            key := some k, cert := some c, signed := true } := by
  cases hie : icon_entries a with
  | none => simp [apple_wallet, hie] at h
  | some ie =>
    cases hte : thumb_entries fetch fuel (discord_avatar u) with
    | none => simp [apple_wallet, hie, hte] at h
    | some te =>
      cases hle : logo_entries a (is_ops u) with
      | none => simp [apple_wallet, hie, hte, hle] at h
      | some le =>
        cases hk : a.key with
        | none => simp [apple_wallet, hie, hte, hle, hk] at h
        | some k =>
          cases hc : a.cert with
          | none => simp [apple_wallet, hie, hte, hle, hk, hc] at h
          | some c =>
            simp [apple_wallet, hie, hte, hle, hk, hc, PKPass.sign] at h
            exact ⟨ie, te, le, k, c, rfl, rfl, rfl, rfl, rfl, by simpa using h.symm⟩

/-! ### Helper facts: image entries are binary, the manifest is unique -/

/-- An entry is a raw-bytes (image) entry. -/
def Entry.isBin : Entry → Prop
  | .bin _ _ => True
  | .manifest _ _ => False

lemma icon_entries_all_bin {a : Assets} {l : List Entry}
    (h : icon_entries a = some l) : ∀ e ∈ l, e.isBin := by
  obtain ⟨i, i2, _, _, rfl⟩ := icon_entries_eq_some h
  intro e he
  fin_cases he <;> simp [Entry.isBin]

lemma thumb_entries_all_bin {fetch : String → HttpResp} {fuel : Nat}
    {av : Option String} {l : List Entry}
    (h : thumb_entries fetch fuel av = some l) : ∀ e ∈ l, e.isBin := by
  cases av with
  | none => rw [thumb_entries_none_eq_some h]; intro e he; cases he
  | some url =>
    obtain ⟨d, _, rfl⟩ := thumb_entries_some_eq_some h
    intro e he
    fin_cases he <;> simp [Entry.isBin]

lemma logo_entries_all_bin {a : Assets} {ops : Bool} {l : List Entry}
    (h : logo_entries a ops = some l) : ∀ e ∈ l, e.isBin := by
  cases ops with
  | true =>
    obtain ⟨l2, l1, _, _, rfl⟩ := logo_entries_true_eq_some h
    intro e he
    fin_cases he <;> simp [Entry.isBin]
  | false =>
    obtain ⟨l2, l1, _, _, rfl⟩ := logo_entries_false_eq_some h
    intro e he
    fin_cases he <;> simp [Entry.isBin]

lemma filterMap_manifest_bins (xs : List Entry) (hxs : ∀ e ∈ xs, e.isBin)
    (n : String) (d : PassJsonData) :
    ((xs ++ [Entry.manifest n d]).filterMap fun e =>
      match e with
      | Entry.manifest _ dd => some dd
      | Entry.bin _ _ => none) = [d] := by
  induction xs with
  | nil => rfl
  | cons x xs ih =>
    cases x with
    | bin nm b =>
      simpa using ih fun e he => hxs e (List.mem_cons_of_mem _ he)
    | manifest nm dm => exact absurd (hxs _ (List.mem_cons_self _ _)) id

/-- A successfully built package carries exactly one manifest: the
`pass.json` built from the profile and the drawn serial. -/
lemma apple_wallet_manifests {a : Assets} {fetch : String → HttpResp}
    {fuel : Nat} {serial : String} {u : UserData} {p : PKPass}
    (h : apple_wallet a fetch fuel serial u = some p) :
    p.manifests = [pass_json u serial] := by
  obtain ⟨ie, te, le, k, c, hie, hte, hle, hk, hc, rfl⟩ := apple_wallet_eq_some h
  have hbin : ∀ e ∈ ie ++ te ++ le, e.isBin := by
    intro e he
    rcases List.mem_append.1 he with he | he
    · rcases List.mem_append.1 he with he | he
      · exact icon_entries_all_bin hie e he
      · exact thumb_entries_all_bin hte e he
    · exact logo_entries_all_bin hle e he
  have := filterMap_manifest_bins (ie ++ te ++ le) hbin "pass.json"
    (pass_json u serial)
  simpa [PKPass.manifests] using this

/-! ### Concrete fixtures (for witnesses and counterexamples) -/

/-- A fully stocked local file store. -/
def testAssets : Assets :=
  { icon := some [1], icon2x := some [2]
    logo_ops := some [3], logo_ops2x := some [4]
    logo_reg := some [5], logo_reg2x := some [6]
    key := some [7], cert := some [8] }

/-- A network where every URL answers 200 with a one-byte body. -/
def testFetch : String → HttpResp := fun _ => { status := 200, body := [9] }

/-- A network where every URL (the avatar and the fallback alike) answers
HTTP 500. -/
def failFetch : String → HttpResp := fun _ => { status := 500, body := [] }

/-- A fully populated profile record. -/
def testUser : UserData :=
  { id := some "uid-1", first_name := some "Jane", surname := some "Doe"
    infra_email := some "jane@infra.hackucf.org"
    ops_email := some "jane@ops.hackucf.org"
    discord := some { username := some "jane#1", avatar := some "https://cdn/av.png" } }

/-- The serial numbers of the manifest entries of a package. -/
def PKPass.serialNumbers (p : PKPass) : List String :=
  p.manifests.map PassJsonData.serialNumber

/-! ### Erasing barcode payloads (for the id-noninterference claim) -/

/-- A barcode with its payload blanked. -/
def BarcodeJson.eraseMessage (b : BarcodeJson) : BarcodeJson :=
  { b with message := "" }

/-- A manifest with every barcode payload blanked. -/
def PassJsonData.eraseBarcodeMessages (d : PassJsonData) : PassJsonData :=
  { d with barcodes := d.barcodes.map BarcodeJson.eraseMessage }

/-- A package entry with barcode payloads blanked (images unchanged). -/
def Entry.eraseBarcodeMessages : Entry → Entry
  | .bin n b => .bin n b
  | .manifest n d => .manifest n d.eraseBarcodeMessages

/-- A package with every barcode payload blanked: "everything other than the
barcode payloads". -/
def PKPass.eraseBarcodeMessages (p : PKPass) : PKPass :=
  { p with entries := p.entries.map Entry.eraseBarcodeMessages }

/-! ### C1 — avatar-fetch fallback recursion -/

/--
Claim C1 (code bug): the claim says `get_img` falls back at most once and stops
even when the fallback URL itself fails.  In the source, the failure branch is
`return get_img(fallback)` with no recursion bound: when the fallback also
answers ≥ 400 the function never returns.  Formally: against a network where
every URL answers HTTP 500, `get_img` returns nothing within *any* recursion
bound, for every starting URL.
-/
theorem get_img_unbounded_on_persistent_failure :
    ∀ fuel url, get_img failFetch fuel url = none := by
  intro fuel
  induction fuel with
  | zero => intro url; rfl
  | succ n ih =>
    intro url
    simp only [get_img, failFetch]
    norm_num
    exact ih fallback_url

/-! ### C2 — passes of profiles differing only in `id` -/

/-- A profile whose stored id happens to be the literal default string. -/
def userLiteralId : UserData := { testUser with id := some "Unknown_ID" }

/-- The same profile with the id key absent. -/
def userNoId : UserData := { testUser with id := none }

/--
Claim C2, counterexample: The source reads the barcode payload as
`user_data.get("id", "Unknown_ID")`, so a profile whose id is absent and a
profile whose id is the literal string `"Unknown_ID"` — records that differ
only in the `id` field — produce the *same* barcode payload, contradicting
the claim that any two profiles differing only in `id` yield differing
payloads.
-/
theorem apple_wallet_id_collision_counterexample :
    userLiteralId.id ≠ userNoId.id ∧
    { userLiteralId with id := userNoId.id } = userNoId ∧
    (apple_wallet testAssets testFetch 1 "serial-0" userLiteralId).map
      PKPass.barcodeMessages = some [["Unknown_ID"]] ∧
    (apple_wallet testAssets testFetch 1 "serial-0" userNoId).map
      PKPass.barcodeMessages = some [["Unknown_ID"]] := by
  refine ⟨by decide, by decide, by decide, by decide⟩

lemma discord_avatar_set_id (u : UserData) (i : Option String) :
    discord_avatar { u with id := i } = discord_avatar u := rfl

lemma is_ops_set_id (u : UserData) (i : Option String) :
    is_ops { u with id := i } = is_ops u := rfl

lemma map_erase_of_all_bin (xs : List Entry) (h : ∀ e ∈ xs, e.isBin) :
    xs.map Entry.eraseBarcodeMessages = xs := by
  induction xs with
  | nil => rfl
  | cons x xs ih =>
    cases x with
    | bin n b =>
      simp only [List.map_cons, Entry.eraseBarcodeMessages, List.cons.injEq,
        true_and]
      exact ih fun e he => h e (List.mem_cons_of_mem _ he)
    | manifest n d => exact absurd (h _ (List.mem_cons_self _ _)) id

lemma pass_json_erase_set_id (u : UserData) (i j : Option String)
    (s : String) :
    (pass_json { u with id := i } s).eraseBarcodeMessages =
      (pass_json { u with id := j } s).eraseBarcodeMessages := rfl

/--
Claim C2, amended: For two profile records that differ only in the `id` field,
with both ids present (so neither falls back to the `"Unknown_ID"` default)
and the random serial draw held fixed across the two builds: the produced
passes have differing barcode payloads, and after blanking the barcode
payloads the two packages are identical (every other part of the pass content
agrees).
-/
theorem apple_wallet_id_noninterference
    (a : Assets) (fetch : String → HttpResp) (fuel : Nat) (serial : String)
    (u : UserData) (i j : String) (p q : PKPass) (hij : i ≠ j)
    (hp : apple_wallet a fetch fuel serial { u with id := some i } = some p)
    (hq : apple_wallet a fetch fuel serial { u with id := some j } = some q) :
    p.barcodeMessages ≠ q.barcodeMessages ∧
    p.eraseBarcodeMessages = q.eraseBarcodeMessages := by
  have hm := apple_wallet_manifests hp
  have hm2 := apple_wallet_manifests hq
  obtain ⟨ie, te, le, k, c, hie, hte, hle, hk, hc, hpe⟩ :=
    apple_wallet_eq_some hp
  obtain ⟨ie2, te2, le2, k2, c2, hie2, hte2, hle2, hk2, hc2, hqe⟩ :=
    apple_wallet_eq_some hq
  rw [discord_avatar_set_id] at hte hte2
  rw [is_ops_set_id] at hle hle2
  obtain rfl : ie = ie2 := Option.some.inj (hie.symm.trans hie2)
  obtain rfl : te = te2 := Option.some.inj (hte.symm.trans hte2)
  obtain rfl : le = le2 := Option.some.inj (hle.symm.trans hle2)
  obtain rfl : k = k2 := Option.some.inj (hk.symm.trans hk2)
  obtain rfl : c = c2 := Option.some.inj (hc.symm.trans hc2)
  constructor
  · simp only [PKPass.barcodeMessages, hm, hm2, pass_json, List.map_cons,
      List.map_nil]
    simp [hij]
  · rw [hpe, hqe]
    simp only [PKPass.eraseBarcodeMessages, List.map_append,
      map_erase_of_all_bin ie (icon_entries_all_bin hie),
      map_erase_of_all_bin te (thumb_entries_all_bin hte),
      map_erase_of_all_bin le (logo_entries_all_bin hle),
      List.map_cons, List.map_nil, Entry.eraseBarcodeMessages]
    rw [pass_json_erase_set_id u (some i) (some j) serial]

/-- Witness: the C2 noninterference theorem instantiated at two concrete
profiles that differ only in (present) ids. -/
def pkgIdA : PKPass :=
  (apple_wallet testAssets testFetch 1 "serial-0"
    { testUser with id := some "id-A" }).getD PKPass.empty

/-- The concrete package built for the second id. -/
def pkgIdB : PKPass :=
  (apple_wallet testAssets testFetch 1 "serial-0"
    { testUser with id := some "id-B" }).getD PKPass.empty

theorem apple_wallet_id_noninterference_witness :
    ("id-A" : String) ≠ "id-B" ∧
    apple_wallet testAssets testFetch 1 "serial-0"
      { testUser with id := some "id-A" } = some pkgIdA ∧
    apple_wallet testAssets testFetch 1 "serial-0"
      { testUser with id := some "id-B" } = some pkgIdB ∧
    (pkgIdA.barcodeMessages ≠ pkgIdB.barcodeMessages ∧
      pkgIdA.eraseBarcodeMessages = pkgIdB.eraseBarcodeMessages) :=
  ⟨by decide, by decide, by decide,
    apple_wallet_id_noninterference testAssets testFetch 1 "serial-0"
      testUser "id-A" "id-B" pkgIdA pkgIdB (by decide) (by decide) (by decide)⟩

/-! ### C3 — barcode payload and alt-text -/

/-- The package built from the fully populated test profile. -/
def pkgTest : PKPass :=
  (apple_wallet testAssets testFetch 1 "serial-0" testUser).getD PKPass.empty

/--
Claim C3, counterexample: The claim says the barcode alt-text is a literal
placeholder *string* when no Discord username is present.  In the source the
alt-text is `user_data.get("discord", {}).get("username", None)`: with no
`discord` record it is `None` (JSON `null`) — not a string at all.
-/
theorem pass_json_alttext_counterexample :
    ({ testUser with discord := none } : UserData).discord = none ∧
    barcodeAltTexts (pass_json { testUser with discord := none } "serial-0") =
      [none] ∧
    (barcodeAltTexts
      (pass_json { testUser with discord := none } "serial-0")).all
        Option.isSome = false := by
  refine ⟨rfl, by decide, by decide⟩

/--
Claim C3, amended: For every successfully built pass: the barcode payload is
the profile's id when present and the literal `"Unknown_ID"` when absent, and
the barcode alt-text is the Discord username when present and `None` (null,
no placeholder string) otherwise.
-/
theorem apple_wallet_barcode_contents (a : Assets)
    (fetch : String → HttpResp) (fuel : Nat) (serial : String) (u : UserData)
    (p : PKPass) (h : apple_wallet a fetch fuel serial u = some p) :
    p.manifests.map
        (fun d => d.barcodes.map fun b => (b.message, b.altText)) =
      [[(u.id.getD "Unknown_ID", discord_username u)]] := by
  simp [apple_wallet_manifests h, pass_json]

theorem apple_wallet_barcode_contents_witness :
    apple_wallet testAssets testFetch 1 "serial-0" testUser = some pkgTest ∧
    pkgTest.manifests.map
        (fun d => d.barcodes.map fun b => (b.message, b.altText)) =
      [[(testUser.id.getD "Unknown_ID", discord_username testUser)]] :=
  ⟨by decide,
    apple_wallet_barcode_contents testAssets testFetch 1 "serial-0" testUser
      pkgTest (by decide)⟩

/-! ### C4 — role-selected logo assets -/

lemma is_ops_iff (u : UserData) :
    is_ops u = true ↔ ∃ e, u.ops_email = some e ∧ e ≠ "" := by
  unfold is_ops
  cases h : u.ops_email <;> simp

/--
Claim C4: For every successfully built pass, the builder selects the operator
logo pair (both scales) if and only if `ops_email` is present and non-empty;
otherwise it selects the regular-member logo pair.
-/
theorem apple_wallet_logo_selection (a : Assets) (fetch : String → HttpResp)
    (fuel : Nat) (serial : String) (u : UserData) (p : PKPass)
    (h : apple_wallet a fetch fuel serial u = some p) :
    ((∃ e, u.ops_email = some e ∧ e ≠ "") →
      p.find "logo.png" = a.logo_ops.map (Entry.bin "logo.png") ∧
      p.find "logo@2x.png" = a.logo_ops2x.map (Entry.bin "logo@2x.png")) ∧
    ((¬ ∃ e, u.ops_email = some e ∧ e ≠ "") →
      p.find "logo.png" = a.logo_reg.map (Entry.bin "logo.png") ∧
      p.find "logo@2x.png" = a.logo_reg2x.map (Entry.bin "logo@2x.png")) := by
  obtain ⟨ie, te, le, k, c, hie, hte, hle, hk, hc, rfl⟩ :=
    apple_wallet_eq_some h
  obtain ⟨i, i2, hi, hi2, rfl⟩ := icon_entries_eq_some hie
  constructor
  · intro hops
    have hb : is_ops u = true := (is_ops_iff u).2 hops
    rw [hb] at hle
    obtain ⟨l2, l1, h2, h1, rfl⟩ := logo_entries_true_eq_some hle
    rw [h1, h2]
    cases hav : discord_avatar u with
    | none =>
      rw [hav] at hte
      rw [thumb_entries_none_eq_some hte]
      constructor <;> simp [PKPass.find, Entry.name]
    | some url =>
      rw [hav] at hte
      obtain ⟨d, hd, rfl⟩ := thumb_entries_some_eq_some hte
      constructor <;> simp [PKPass.find, Entry.name]
  · intro hops
    have hb : is_ops u = false := by
      cases hb : is_ops u with
      | false => rfl
      | true => exact absurd ((is_ops_iff u).1 hb) hops
    rw [hb] at hle
    obtain ⟨l2, l1, h2, h1, rfl⟩ := logo_entries_false_eq_some hle
    rw [h1, h2]
    cases hav : discord_avatar u with
    | none =>
      rw [hav] at hte
      rw [thumb_entries_none_eq_some hte]
      constructor <;> simp [PKPass.find, Entry.name]
    | some url =>
      rw [hav] at hte
      obtain ⟨d, hd, rfl⟩ := thumb_entries_some_eq_some hte
      constructor <;> simp [PKPass.find, Entry.name]

theorem apple_wallet_logo_selection_witness :
    apple_wallet testAssets testFetch 1 "serial-0" testUser = some pkgTest ∧
    pkgTest.find "logo.png" = some (Entry.bin "logo.png" [3]) ∧
    pkgTest.find "logo@2x.png" = some (Entry.bin "logo@2x.png" [4]) := by
  have h := apple_wallet_logo_selection testAssets testFetch 1 "serial-0"
    testUser pkgTest (by decide)
  have hops : ∃ e, testUser.ops_email = some e ∧ e ≠ "" :=
    ⟨"jane@ops.hackucf.org", by decide, by decide⟩
  exact ⟨by decide, ((h.1 hops).1).trans (by decide),
    ((h.1 hops).2).trans (by decide)⟩

/-! ### C5 — secondary field and `infra_email` -/

/-- The secondary field values of a manifest. -/
def secondaryValues (d : PassJsonData) : List String :=
  d.generic.secondaryFields.map FieldJson.value

/--
Claim C5, counterexample: The source reads the secondary value as
`user_data.get("infra_email", "Not Provisioned")`: the default fires only
when the *key is absent*.  A profile whose `infra_email` is present but the
empty string gets the empty string, not `"Not Provisioned"`.
-/
theorem pass_json_infra_empty_counterexample :
    ({ testUser with infra_email := some "" } : UserData).infra_email =
      some "" ∧
    secondaryValues
      (pass_json { testUser with infra_email := some "" } "serial-0") =
      [""] ∧
    ("" : String) ≠ "Not Provisioned" := by
  refine ⟨rfl, by decide, by decide⟩

/--
Claim C5, amended: For every successfully built pass, the secondary field
value is the stored `infra_email` whenever the field is present (even when it
is the empty string), and the literal `"Not Provisioned"` exactly when the
field is absent.
-/
theorem apple_wallet_infra_secondary (a : Assets)
    (fetch : String → HttpResp) (fuel : Nat) (serial : String) (u : UserData)
    (p : PKPass) (h : apple_wallet a fetch fuel serial u = some p) :
    p.manifests.map secondaryValues =
      [[u.infra_email.getD "Not Provisioned"]] := by
  simp [apple_wallet_manifests h, pass_json, secondaryValues]

/-- The package built from the test profile with no `infra_email` key. -/
def pkgNoInfra : PKPass :=
  (apple_wallet testAssets testFetch 1 "serial-0"
    { testUser with infra_email := none }).getD PKPass.empty

theorem apple_wallet_infra_secondary_witness :
    apple_wallet testAssets testFetch 1 "serial-0"
      { testUser with infra_email := none } = some pkgNoInfra ∧
    pkgNoInfra.manifests.map secondaryValues = [["Not Provisioned"]] := by
  have h := apple_wallet_infra_secondary testAssets testFetch 1 "serial-0"
    { testUser with infra_email := none } pkgNoInfra (by decide)
  exact ⟨by decide, by simpa using h⟩

/-! ### C6 — thumbnail entries -/

/-- Both logo branches store their bytes under the same two entry names. -/
lemma logo_entries_names {a : Assets} {ops : Bool} {l : List Entry}
    (h : logo_entries a ops = some l) :
    ∃ l2 l1, l = [Entry.bin "logo@2x.png" l2, Entry.bin "logo.png" l1] := by
  cases ops with
  | true =>
    obtain ⟨l2, l1, _, _, rfl⟩ := logo_entries_true_eq_some h
    exact ⟨l2, l1, rfl⟩
  | false =>
    obtain ⟨l2, l1, _, _, rfl⟩ := logo_entries_false_eq_some h
    exact ⟨l2, l1, rfl⟩

/-- A fetch that succeeds outright returns the response body. -/
lemma get_img_of_ok {fetch : String → HttpResp} {url : String}
    (hok : (fetch url).status < 400) :
    ∀ {fuel : Nat} {d : Bytes}, get_img fetch fuel url = some d →
      d = (fetch url).body := by
  intro fuel d h
  cases fuel with
  | zero => simp [get_img] at h
  | succ n =>
    simp only [get_img, if_pos hok, Option.some.injEq] at h
    exact h.symm

/--
Claim C6: For every successfully built pass: if the profile has no avatar URL
the package contains no thumbnail entries; if it has an avatar URL whose
fetch succeeds (status < 400), the package contains exactly the two thumbnail
scale entries, both holding the same bytes (the fetched body).
-/
theorem apple_wallet_thumbnails (a : Assets) (fetch : String → HttpResp)
    (fuel : Nat) (serial : String) (u : UserData) (p : PKPass)
    (h : apple_wallet a fetch fuel serial u = some p) :
    (discord_avatar u = none → p.thumbEntries = []) ∧
    (∀ url, discord_avatar u = some url → (fetch url).status < 400 →
      p.thumbEntries =
        [Entry.bin "thumbnail.png" (fetch url).body,
         Entry.bin "thumbnail@2x.png" (fetch url).body]) := by
  obtain ⟨ie, te, le, k, c, hie, hte, hle, hk, hc, rfl⟩ :=
    apple_wallet_eq_some h
  obtain ⟨i, i2, hi, hi2, rfl⟩ := icon_entries_eq_some hie
  obtain ⟨l2, l1, rfl⟩ := logo_entries_names hle
  constructor
  · intro hav
    rw [hav] at hte
    rw [thumb_entries_none_eq_some hte]
    simp [PKPass.thumbEntries, Entry.name]
  · intro url hav hok
    rw [hav] at hte
    obtain ⟨d, hd, rfl⟩ := thumb_entries_some_eq_some hte
    obtain rfl := get_img_of_ok hok hd
    simp [PKPass.thumbEntries, Entry.name]

theorem apple_wallet_thumbnails_witness :
    apple_wallet testAssets testFetch 1 "serial-0" testUser = some pkgTest ∧
    discord_avatar testUser = some "https://cdn/av.png" ∧
    (testFetch "https://cdn/av.png").status < 400 ∧
    pkgTest.thumbEntries =
      [Entry.bin "thumbnail.png" [9], Entry.bin "thumbnail@2x.png" [9]] := by
  have h := apple_wallet_thumbnails testAssets testFetch 1 "serial-0"
    testUser pkgTest (by decide)
  exact ⟨by decide, rfl, by decide,
    (h.2 "https://cdn/av.png" rfl (by decide)).trans (by decide)⟩

/-! ### C7 — primary display field -/

/-- The primary field values of a manifest. -/
def primaryValues (d : PassJsonData) : List String :=
  d.generic.primaryFields.map FieldJson.value

/--
Claim C7: For every successfully built pass, the primary display field value
is the first name and the surname joined by a single space; an absent name
component degrades to the empty string (the build is total in the name
fields — no crash).
-/
theorem apple_wallet_primary_name (a : Assets) (fetch : String → HttpResp)
    (fuel : Nat) (serial : String) (u : UserData) (p : PKPass)
    (h : apple_wallet a fetch fuel serial u = some p) :
    p.manifests.map primaryValues =
      [[u.first_name.getD "" ++ " " ++ u.surname.getD ""]] := by
  simp [apple_wallet_manifests h, pass_json, primaryValues]

theorem apple_wallet_primary_name_witness :
    apple_wallet testAssets testFetch 1 "serial-0" testUser = some pkgTest ∧
    pkgTest.manifests.map primaryValues = [["Jane Doe"]] := by
  have h := apple_wallet_primary_name testAssets testFetch 1 "serial-0"
    testUser pkgTest (by decide)
  exact ⟨by decide, by simpa using h⟩

/-! ### C8 — serial freshness across invocations -/

/--
Claim C8: The serial number of a built pass is exactly the `uuid.uuid4()` draw
of that invocation (`serialNumber: str(uuid.uuid4())`), and nothing is cached
across invocations: two builds over the *same* profile with distinct draws
produce passes with distinct serial numbers — distinct passes.
-/
theorem apple_wallet_serial_fresh (a : Assets) (fetch : String → HttpResp)
    (fuel : Nat) (u : UserData) (s1 s2 : String) (p q : PKPass)
    (hs : s1 ≠ s2)
    (hp : apple_wallet a fetch fuel s1 u = some p)
    (hq : apple_wallet a fetch fuel s2 u = some q) :
    p.serialNumbers = [s1] ∧ q.serialNumbers = [s2] ∧
    p.serialNumbers ≠ q.serialNumbers ∧ p ≠ q := by
  have h1 : p.serialNumbers = [s1] := by
    simp [PKPass.serialNumbers, apple_wallet_manifests hp, pass_json]
  have h2 : q.serialNumbers = [s2] := by
    simp [PKPass.serialNumbers, apple_wallet_manifests hq, pass_json]
  have h3 : p.serialNumbers ≠ q.serialNumbers := by
    rw [h1, h2]
    simp [hs]
  exact ⟨h1, h2, h3, fun he => h3 (he ▸ rfl)⟩

/-- The test package built from a second, distinct serial draw. -/
def pkgSerial1 : PKPass :=
  (apple_wallet testAssets testFetch 1 "serial-1" testUser).getD PKPass.empty

theorem apple_wallet_serial_fresh_witness :
    ("serial-0" : String) ≠ "serial-1" ∧
    apple_wallet testAssets testFetch 1 "serial-0" testUser = some pkgTest ∧
    apple_wallet testAssets testFetch 1 "serial-1" testUser = some pkgSerial1 ∧
    (pkgTest.serialNumbers = ["serial-0"] ∧
      pkgSerial1.serialNumbers = ["serial-1"] ∧
      pkgTest.serialNumbers ≠ pkgSerial1.serialNumbers ∧
      pkgTest ≠ pkgSerial1) :=
  ⟨by decide, by decide, by decide,
    apple_wallet_serial_fresh testAssets testFetch 1 testUser
      "serial-0" "serial-1" pkgTest pkgSerial1
      (by decide) (by decide) (by decide)⟩

/-! ### C9 — all-or-nothing construction, signing last -/

/--
Claim C9: Every pass the builder returns is the `sign` of the *fully*
assembled package — all asset reads, the avatar fetch, the manifest entry and
both credentials succeeded, and signing is applied last, to the complete
entry list.  Since the builder yields `none` whenever any step fails, no
partially built or unsigned package is ever returned.
-/
theorem apple_wallet_all_or_nothing (a : Assets) (fetch : String → HttpResp)
    (fuel : Nat) (serial : String) (u : UserData) (p : PKPass)
    (h : apple_wallet a fetch fuel serial u = some p) :
    p.signed = true ∧
    ∃ ie te le k c,
      icon_entries a = some ie ∧
      thumb_entries fetch fuel (discord_avatar u) = some te ∧
      logo_entries a (is_ops u) = some le ∧
      a.key = some k ∧ a.cert = some c ∧
      p = PKPass.sign
        { entries := ie ++ te ++ le ++
            [Entry.manifest "pass.json" (pass_json u serial)],
          key := some k, cert := some c, signed := false } := by
  obtain ⟨ie, te, le, k, c, h1, h2, h3, h4, h5, rfl⟩ := apple_wallet_eq_some h
  exact ⟨rfl, ie, te, le, k, c, h1, h2, h3, h4, h5, rfl⟩

theorem apple_wallet_all_or_nothing_witness :
    apple_wallet testAssets testFetch 1 "serial-0" testUser = some pkgTest ∧
    (pkgTest.signed = true ∧
      ∃ ie te le k c,
        icon_entries testAssets = some ie ∧
        thumb_entries testFetch 1 (discord_avatar testUser) = some te ∧
        logo_entries testAssets (is_ops testUser) = some le ∧
        testAssets.key = some k ∧ testAssets.cert = some c ∧
        pkgTest = PKPass.sign
          { entries := ie ++ te ++ le ++
              [Entry.manifest "pass.json" (pass_json testUser "serial-0")],
            key := some k, cert := some c, signed := false }) :=
  ⟨by decide,
    apple_wallet_all_or_nothing testAssets testFetch 1 "serial-0" testUser
      pkgTest (by decide)⟩

/-! ### C10 — entry names are pairwise distinct -/

/--
Claim C10: For every successfully built pass, the names the builder stores
entries under (`icon.png`, `icon@2x.png`, the optional `thumbnail.png` and
`thumbnail@2x.png`, `logo@2x.png`, `logo.png`, `pass.json`) are pairwise
distinct: no name is ever added twice.
-/
theorem apple_wallet_entry_names_nodup (a : Assets)
    (fetch : String → HttpResp) (fuel : Nat) (serial : String) (u : UserData)
    (p : PKPass) (h : apple_wallet a fetch fuel serial u = some p) :
    (p.entries.map Entry.name).Nodup := by
  obtain ⟨ie, te, le, k, c, hie, hte, hle, hk, hc, rfl⟩ :=
    apple_wallet_eq_some h
  obtain ⟨i, i2, hi, hi2, rfl⟩ := icon_entries_eq_some hie
  obtain ⟨l2, l1, rfl⟩ := logo_entries_names hle
  cases hav : discord_avatar u with
  | none =>
    rw [hav] at hte
    rw [thumb_entries_none_eq_some hte]
    simp only [List.map_append, List.map_cons, List.map_nil, Entry.name,
      List.append_nil, List.nil_append]
    decide
  | some url =>
    rw [hav] at hte
    obtain ⟨d, hd, rfl⟩ := thumb_entries_some_eq_some hte
    simp only [List.map_append, List.map_cons, List.map_nil, Entry.name,
      List.append_nil, List.nil_append]
    decide

theorem apple_wallet_entry_names_nodup_witness :
    apple_wallet testAssets testFetch 1 "serial-0" testUser = some pkgTest ∧
    (pkgTest.entries.map Entry.name).Nodup :=
  ⟨by decide,
    apple_wallet_entry_names_nodup testAssets testFetch 1 "serial-0" testUser
      pkgTest (by decide)⟩
